import Mathlib

/-!
# Resample.cpp: the libsoxr wrapper of Audacity

A shallow embedding of `src/src/Resample.cpp`.

* `double` values are an arbitrary type `D` together with the three IEEE operations the
  file uses (`DoubleOps`): the constant `1`, division and `==`.
* `size_t` values are natural numbers below `2 ^ w`; `~x` is `sizeNot w x`.
* libsoxr is not part of the file: it is a parameter (`Soxr`), a record of the three library
  functions the wrapper calls, acting on a handle state `H` by explicit state passing.
  `Soxr.logged` instruments any such library with the list of calls it has received, which
  is how statements about "what is passed to the library" are expressed.
* `gPrefs` is a key-value store (`Store`), read through `Read`.
-/

namespace Audacity

/-! ## Doubles and machine words -/

/-- The operations on `double` used by `Resample.cpp`. -/
structure DoubleOps (D : Type) where
  /-- the literal `1` converted to `double` -/
  one : D
  /-- IEEE division `a / b` -/
  div : D → D → D
  /-- IEEE comparison `a == b` -/
  eq : D → D → Bool

/-- Bitwise complement `~x` of a `w`-bit `size_t`. -/
def sizeNot (w : Nat) (x : Nat) : Nat := 2 ^ w - 1 - x % 2 ^ w

/-- Most significant bit of a `w`-bit word. -/
def topBit (w : Nat) (x : Nat) : Bool := x % 2 ^ w / 2 ^ (w - 1) % 2 == 1

/-! ## The libsoxr interface -/

/-- The value built by `soxr_quality_spec(recipe, flags)`, identified by its two arguments.
`recipe` is `none` when the argument expression has no defined value (a read outside the
string literal in the constructor). -/
structure soxr_quality_spec_t where
  recipe : Option Nat
  flags : Nat
deriving DecidableEq, Repr

/-- What `soxr_process` reports: the new engine state, `*idone`, `*odone` and the samples it
wrote to the output buffer. -/
structure soxr_process_result (H S : Type) where
  handle : H
  idone : Nat
  odone : Nat
  written : List S

/-- The part of libsoxr used by `Resample.cpp`, as state-passing functions on the engine
state `H`. `SOXR_HQ` and `SOXR_VR` are the constants of `soxr.h`. In `create` the arguments
are `input_rate`, `output_rate`, `num_channels` and the quality spec; the `error`, `io_spec`
and `runtime_spec` pointers are always null in this program. In `process` the arguments are
the handle, the input buffer, the input length word and the output capacity. -/
structure Soxr (D S H : Type) where
  SOXR_HQ : Nat
  SOXR_VR : Nat
  create : D → D → Nat → soxr_quality_spec_t → H
  set_io_ratio : H → D → Nat → H
  process : H → List S → Nat → Nat → soxr_process_result H S

/-- One call received by the library. -/
inductive SoxrCall (D S : Type) where
  | soxr_create (input_rate output_rate : D) (num_channels : Nat) (q_spec : soxr_quality_spec_t)
  | soxr_set_io_ratio (io_ratio : D) (slew_len : Nat)
  | soxr_process (inBuffer : List S) (ilen : Nat) (olen : Nat)
deriving DecidableEq

/-- The library `lib`, instrumented: the handle also carries the calls made on it so far,
oldest first. -/
def Soxr.logged {D S H : Type} (lib : Soxr D S H) : Soxr D S (List (SoxrCall D S) × H) where
  SOXR_HQ := lib.SOXR_HQ
  SOXR_VR := lib.SOXR_VR
  create := fun i o n q => ([SoxrCall.soxr_create i o n q], lib.create i o n q)
  set_io_ratio := fun h r s =>
    (h.1 ++ [SoxrCall.soxr_set_io_ratio r s], lib.set_io_ratio h.2 r s)
  process := fun h b ilen olen =>
    let r := lib.process h.2 b ilen olen
    { handle := (h.1 ++ [SoxrCall.soxr_process b ilen olen], r.handle),
      idone := r.idone, odone := r.odone, written := r.written }

/-! ## Configuration storage -/

/-- The contents of `gPrefs`: the integer stored under each key, if any. -/
abbrev Store := String → Option Int

/-- Modelled from the spec: `gPrefs->Read(key, defaultVal)` (declared in `Prefs.h`, not in
`Resample.cpp`): "a key-value store queried by string key, returning an integer with a
caller-supplied default when absent". -/
def Read (gPrefs : Store) (key : String) (defaultVal : Int) : Int :=
  match gPrefs key with
  | some v => v
  | none => defaultVal

/-! ## Static members -/

def GetNumMethods : Int := 4

def GetFastMethodKey : String := "/Quality/LibsoxrSampleRateConverter"

def GetBestMethodKey : String := "/Quality/LibsoxrHQSampleRateConverter"

def GetFastMethodDefault : Int := 1

def GetBestMethodDefault : Int := 3

/-- The array `soxr_method_names` of `GetMethodName`; `XO` only marks a string for
extraction and yields the string itself. -/
def soxr_method_names : List String :=
  ["Low Quality (Fastest)", "Medium Quality", "High Quality", "Best Quality (Slowest)"]

/-- The method `MethodNamesArray::Populate`: appends the translation of every name to `mContents`. -/
def Populate (wxGetTranslation : String → String) (mContents : List String) : List String :=
  soxr_method_names.foldl (fun acc name => acc ++ [wxGetTranslation name]) mContents

/-- Modelled from the spec: `TranslatableStringArray::Get` (declared in
`TranslatableStringArray.h`, not in `Resample.cpp`): the translations are produced "lazily
and cached the first time preset names are requested, then reused". Returns the contents,
which are also the new value of the cache. -/
def Get (wxGetTranslation : String → String) (mContents : List String) : List String :=
  if mContents.isEmpty then Populate wxGetTranslation mContents else mContents

/-- The function `Resample::GetMethodName(index)`, on the state `theArray` of the function-local static
array. Returns the new state and the string; `none` when `index` is outside the array. -/
def GetMethodName (wxGetTranslation : String → String) (theArray : List String) (index : Int) :
    List String × Option String :=
  let contents := Get wxGetTranslation theArray
  (contents, if 0 ≤ index then contents.get? index.toNat else none)

/-! ## The engine -/

/-- The data members of `Resample`. -/
structure Resample (H : Type) where
  mMethod : Int
  mbWantConstRateResampling : Bool
  mHandle : H

/-- The method `Resample::SetMethod`: returns `gPrefs` after the call and the value assigned to
`mMethod`. -/
def SetMethod (gPrefs : Store) (useBestMethod : Bool) : Store × Int :=
  if useBestMethod then
    (gPrefs, Read gPrefs GetBestMethodKey GetBestMethodDefault)
  else
    (gPrefs, Read gPrefs GetFastMethodKey GetFastMethodDefault)

/-- The characters of the string literal in the constructor, terminating NUL included. -/
def recipeChars : List Nat := [0, 1, 4, 6, 0]

/-- The expression `"\0\1\4\6"[mMethod]`: `none` outside the literal. -/
def recipeAt (mMethod : Int) : Option Nat :=
  if 0 ≤ mMethod then recipeChars.get? mMethod.toNat else none

/-- The call `soxr_quality_spec(recipe, flags)`. -/
def soxr_quality_spec (recipe : Option Nat) (flags : Nat) : soxr_quality_spec_t :=
  { recipe := recipe, flags := flags }

/-- The constructor `Resample::Resample(useBestMethod, dMinFactor, dMaxFactor)`: returns `gPrefs` after
construction and the engine. -/
def construct {D S H : Type} (ops : DoubleOps D) (lib : Soxr D S H) (gPrefs : Store)
    (useBestMethod : Bool) (dMinFactor dMaxFactor : D) : Store × Resample H :=
  let (gPrefs, mMethod) := SetMethod gPrefs useBestMethod
  if ops.eq dMinFactor dMaxFactor then
    let q_spec := soxr_quality_spec (recipeAt mMethod) 0
    (gPrefs, { mMethod := mMethod, mbWantConstRateResampling := true,
               mHandle := lib.create ops.one dMinFactor 1 q_spec })
  else
    let q_spec := soxr_quality_spec (some lib.SOXR_HQ) lib.SOXR_VR
    (gPrefs, { mMethod := mMethod, mbWantConstRateResampling := false,
               mHandle := lib.create ops.one dMinFactor 1 q_spec })

/-- The effects of one `Process` call: the engine afterwards, the returned pair
`{ idone, odone }` and the samples written to `outBuffer`. -/
structure ProcessOut (H S : Type) where
  self : Resample H
  ret : Nat × Nat
  outBuffer : List S

/-- The method
`Resample::Process(factor, inBuffer, inBufferLen, lastFlag, outBuffer, outBufferLen)`
for a `w`-bit `size_t`. -/
def Process {D S H : Type} (ops : DoubleOps D) (lib : Soxr D S H) (w : Nat) (self : Resample H)
    (factor : D) (inBuffer : List S) (inBufferLen : Nat) (lastFlag : Bool)
    (outBufferLen : Nat) : ProcessOut H S :=
  if self.mbWantConstRateResampling then
    let r := lib.process self.mHandle
      inBuffer (if lastFlag then sizeNot w inBufferLen else inBufferLen)
      outBufferLen
    { self := { self with mHandle := r.handle }, ret := (r.idone, r.odone),
      outBuffer := r.written }
  else
    let h := lib.set_io_ratio self.mHandle (ops.div ops.one factor) 0
    let inBufferLen := if lastFlag then sizeNot w inBufferLen else inBufferLen
    let r := lib.process h
      inBuffer inBufferLen
      outBufferLen
    { self := { self with mHandle := r.handle }, ret := (r.idone, r.odone),
      outBuffer := r.written }

/-- The arguments of one `Process` call. -/
structure ProcessArgs (D S : Type) where
  factor : D
  inBuffer : List S
  inBufferLen : Nat
  lastFlag : Bool
  outBufferLen : Nat

/-- The engine after a sequence of `Process` calls, made in order. -/
def processAll {D S H : Type} (ops : DoubleOps D) (lib : Soxr D S H) (w : Nat) :
    Resample H → List (ProcessArgs D S) → Resample H
  | self, [] => self
  | self, a :: rest =>
    processAll ops lib w
      (Process ops lib w self a.factor a.inBuffer a.inBufferLen a.lastFlag a.outBufferLen).self
      rest

/-! ## A concrete library for evaluating the definitions -/

/-- Exact rational arithmetic standing in for `double`. -/
def ratOps : DoubleOps ℚ where
  one := 1
  div := fun a b => a / b
  eq := fun a b => decide (a = b)

/-- A toy engine: the state is the current input/output ratio, and `process` copies
`min ilen olen` samples (a word with the top bit of a 64-bit `size_t` set is a flush request
carrying the complemented length). -/
def holdSoxr : Soxr ℚ Int ℚ where
  SOXR_HQ := 4
  SOXR_VR := 32
  create := fun i o _ _ => i / o
  set_io_ratio := fun _ r _ => r
  process := fun h b ilen olen =>
    let n := min (if topBit 64 ilen then sizeNot 64 ilen else ilen) olen
    { handle := h, idone := n, odone := n, written := b.take n }

/-- The four preset recipes, fastest to best: the characters of the constructor's string
literal before its terminator. -/
def presetRecipes : List Nat := recipeChars.take 4

/-- An example store: the best-quality key holds 7, nothing else is stored. -/
def storeBest7 : Store := fun key => if key = GetBestMethodKey then some 7 else none

/-- An example store: the fast key holds 2, nothing else is stored. -/
def storeFast2 : Store := fun key => if key = GetFastMethodKey then some 2 else none

/-! ## Lemmas on `Process` -/

section Lemmas

variable {D S H : Type} (ops : DoubleOps D) (lib : Soxr D S H) (w : Nat)

theorem Process_keeps_mode (self : Resample H) (factor : D) (inBuffer : List S)
    (inBufferLen : Nat) (lastFlag : Bool) (outBufferLen : Nat) :
    (Process ops lib w self factor inBuffer inBufferLen lastFlag outBufferLen).self.mbWantConstRateResampling
      = self.mbWantConstRateResampling := by
  unfold Process
  split <;> rfl

theorem Process_keeps_method (self : Resample H) (factor : D) (inBuffer : List S)
    (inBufferLen : Nat) (lastFlag : Bool) (outBufferLen : Nat) :
    (Process ops lib w self factor inBuffer inBufferLen lastFlag outBufferLen).self.mMethod
      = self.mMethod := by
  unfold Process
  split <;> rfl

theorem processAll_keeps (calls : List (ProcessArgs D S)) (self : Resample H) :
    (processAll ops lib w self calls).mbWantConstRateResampling = self.mbWantConstRateResampling
      ∧ (processAll ops lib w self calls).mMethod = self.mMethod := by
  induction calls generalizing self with
  | nil => exact ⟨rfl, rfl⟩
  | cons a rest ih =>
    simp only [processAll]
    obtain ⟨h1, h2⟩ := ih
      (Process ops lib w self a.factor a.inBuffer a.inBufferLen a.lastFlag a.outBufferLen).self
    rw [h1, h2, Process_keeps_mode, Process_keeps_method]
    exact ⟨rfl, rfl⟩

theorem construct_mode (gPrefs : Store) (useBestMethod : Bool) (dMinFactor dMaxFactor : D) :
    (construct ops lib gPrefs useBestMethod dMinFactor dMaxFactor).2.mbWantConstRateResampling
      = ops.eq dMinFactor dMaxFactor := by
  unfold construct
  cases h : ops.eq dMinFactor dMaxFactor <;> simp

theorem construct_method (gPrefs : Store) (useBestMethod : Bool) (dMinFactor dMaxFactor : D) :
    (construct ops lib gPrefs useBestMethod dMinFactor dMaxFactor).2.mMethod
      = (SetMethod gPrefs useBestMethod).2 := by
  unfold construct
  cases h : ops.eq dMinFactor dMaxFactor <;> simp

theorem construct_store (gPrefs : Store) (useBestMethod : Bool) (dMinFactor dMaxFactor : D) :
    (construct ops lib gPrefs useBestMethod dMinFactor dMaxFactor).1 = gPrefs := by
  unfold construct SetMethod
  cases h : ops.eq dMinFactor dMaxFactor <;> cases useBestMethod <;> simp

theorem processAll_variable_log (calls : List (ProcessArgs D S))
    (self : Resample (List (SoxrCall D S) × H))
    (hvar : self.mbWantConstRateResampling = false) :
    (processAll ops lib.logged w self calls).mHandle.1
      = calls.foldl (fun log a => log ++
          [SoxrCall.soxr_set_io_ratio (ops.div ops.one a.factor) 0,
           SoxrCall.soxr_process a.inBuffer
             (if a.lastFlag then sizeNot w a.inBufferLen else a.inBufferLen)
             a.outBufferLen]) self.mHandle.1 := by
  induction calls generalizing self with
  | nil => rfl
  | cons a rest ih =>
    simp only [processAll, List.foldl_cons]
    rw [ih _ (by rw [Process_keeps_mode]; exact hvar)]
    congr 1
    unfold Process
    rw [hvar]
    simp [Soxr.logged]

theorem sizeNot_of_lt {x : Nat} (h : x < 2 ^ w) : sizeNot w x = 2 ^ w - 1 - x := by
  unfold sizeNot
  rw [Nat.mod_eq_of_lt h]

end Lemmas

/-! ## The claims -/

/-- C1: the constructor sets the ratio mode to constant exactly when
`dMinFactor == dMaxFactor` and the quality level to the value resolved by `SetMethod`, and
no sequence of `Process` calls changes either of them. -/
theorem C1_mode_and_method_fixed {D S H : Type} (ops : DoubleOps D) (lib : Soxr D S H) (w : Nat)
    (gPrefs : Store) (useBestMethod : Bool) (dMinFactor dMaxFactor : D)
    (calls : List (ProcessArgs D S)) :
    ((construct ops lib gPrefs useBestMethod dMinFactor dMaxFactor).2.mbWantConstRateResampling
        = true ↔ ops.eq dMinFactor dMaxFactor = true)
    ∧ ((processAll ops lib w (construct ops lib gPrefs useBestMethod dMinFactor dMaxFactor).2
          calls).mbWantConstRateResampling = true ↔ ops.eq dMinFactor dMaxFactor = true)
    ∧ (processAll ops lib w (construct ops lib gPrefs useBestMethod dMinFactor dMaxFactor).2
          calls).mMethod
        = (construct ops lib gPrefs useBestMethod dMinFactor dMaxFactor).2.mMethod
    ∧ (construct ops lib gPrefs useBestMethod dMinFactor dMaxFactor).2.mMethod
        = (SetMethod gPrefs useBestMethod).2 := by
  obtain ⟨h1, h2⟩ := processAll_keeps ops lib w calls
    (construct ops lib gPrefs useBestMethod dMinFactor dMaxFactor).2
  rw [h1, h2, construct_mode, construct_method]
  exact ⟨Iff.rfl, Iff.rfl, rfl, rfl⟩

/-- C2: in constant mode two `Process` calls that differ only in `factor` have the same
effects (engine state with its whole call log, returned pair, output samples), on the plain
library and on the instrumented one, and the only library call issued is the one
`soxr_process` with the buffer, the length word and the capacity: no ratio update. -/
theorem C2_constant_mode_ignores_factor {D S H : Type} (ops : DoubleOps D) (lib : Soxr D S H)
    (w : Nat) (self : Resample (List (SoxrCall D S) × H))
    (hconst : self.mbWantConstRateResampling = true) (f1 f2 : D) (inBuffer : List S)
    (inBufferLen : Nat) (lastFlag : Bool) (outBufferLen : Nat) :
    Process ops lib.logged w self f1 inBuffer inBufferLen lastFlag outBufferLen
        = Process ops lib.logged w self f2 inBuffer inBufferLen lastFlag outBufferLen
    ∧ (Process ops lib.logged w self f1 inBuffer inBufferLen lastFlag outBufferLen).self.mHandle.1
        = self.mHandle.1 ++ [SoxrCall.soxr_process inBuffer
            (if lastFlag then sizeNot w inBufferLen else inBufferLen) outBufferLen]
    ∧ (∀ plain : Resample H, plain.mbWantConstRateResampling = true →
        Process ops lib w plain f1 inBuffer inBufferLen lastFlag outBufferLen
          = Process ops lib w plain f2 inBuffer inBufferLen lastFlag outBufferLen) := by
  refine ⟨?_, ?_, ?_⟩
  · unfold Process
    rw [if_pos hconst, if_pos hconst]
  · unfold Process
    rw [if_pos hconst]
    rfl
  · intro plain hplain
    unfold Process
    rw [if_pos hplain, if_pos hplain]

/-- Witness of C2 on the toy library: constant mode, ratio arguments 2 and 1/3. -/
theorem C2_constant_mode_ignores_factor_witness :
    (construct ratOps holdSoxr.logged storeFast2 false 2 2).2.mbWantConstRateResampling = true
    ∧ Process ratOps holdSoxr.logged 64
          (construct ratOps holdSoxr.logged storeFast2 false 2 2).2 2 [5, 6, 7] 3 false 2
        = Process ratOps holdSoxr.logged 64
          (construct ratOps holdSoxr.logged storeFast2 false 2 2).2 (1 / 3) [5, 6, 7] 3 false 2 :=
  ⟨rfl, (C2_constant_mode_ignores_factor ratOps holdSoxr 64
      (construct ratOps holdSoxr.logged storeFast2 false 2 2).2 rfl 2 (1 / 3)
      [5, 6, 7] 3 false 2).1⟩

/-- C3: in variable mode a `Process` call issues exactly two library calls, in this order:
`soxr_set_io_ratio` with ratio `1 / factor` and slew length 0, then `soxr_process` on the
chunk; the processing step runs on the state left by the ratio update, and the returned
pair is the `(idone, odone)` it reports. Over any sequence of calls the log grows by such a
pair for every call, each with the ratio of its own call. -/
theorem C3_variable_mode_sets_ratio_first {D S H : Type} (ops : DoubleOps D) (lib : Soxr D S H)
    (w : Nat) (self : Resample (List (SoxrCall D S) × H))
    (hvar : self.mbWantConstRateResampling = false) (factor : D) (inBuffer : List S)
    (inBufferLen : Nat) (lastFlag : Bool) (outBufferLen : Nat) :
    (Process ops lib.logged w self factor inBuffer inBufferLen lastFlag
        outBufferLen).self.mHandle.1
      = self.mHandle.1 ++
          [SoxrCall.soxr_set_io_ratio (ops.div ops.one factor) 0,
           SoxrCall.soxr_process inBuffer
             (if lastFlag then sizeNot w inBufferLen else inBufferLen) outBufferLen]
    ∧ (Process ops lib.logged w self factor inBuffer inBufferLen lastFlag outBufferLen).ret
      = ((lib.process (lib.set_io_ratio self.mHandle.2 (ops.div ops.one factor) 0) inBuffer
            (if lastFlag then sizeNot w inBufferLen else inBufferLen) outBufferLen).idone,
         (lib.process (lib.set_io_ratio self.mHandle.2 (ops.div ops.one factor) 0) inBuffer
            (if lastFlag then sizeNot w inBufferLen else inBufferLen) outBufferLen).odone)
    ∧ (Process ops lib.logged w self factor inBuffer inBufferLen lastFlag
        outBufferLen).self.mHandle.2
      = (lib.process (lib.set_io_ratio self.mHandle.2 (ops.div ops.one factor) 0) inBuffer
            (if lastFlag then sizeNot w inBufferLen else inBufferLen) outBufferLen).handle
    ∧ (∀ calls : List (ProcessArgs D S),
        (processAll ops lib.logged w self calls).mHandle.1
          = calls.foldl (fun log a => log ++
              [SoxrCall.soxr_set_io_ratio (ops.div ops.one a.factor) 0,
               SoxrCall.soxr_process a.inBuffer
                 (if a.lastFlag then sizeNot w a.inBufferLen else a.inBufferLen)
                 a.outBufferLen]) self.mHandle.1) := by
  refine ⟨?_, ?_, ?_, ?_⟩
  · unfold Process
    rw [hvar]
    simp [Soxr.logged]
  · unfold Process
    rw [hvar]
    simp [Soxr.logged]
  · unfold Process
    rw [hvar]
    simp [Soxr.logged]
  · intro calls
    exact processAll_variable_log ops lib w calls self hvar

/-- Witness of C3 on the toy library: variable mode (ratios 1 to 2), factor 2, so the ratio
passed to the library is 1/2. -/
theorem C3_variable_mode_sets_ratio_first_witness :
    (construct ratOps holdSoxr.logged storeFast2 false 1 2).2.mbWantConstRateResampling = false
    ∧ (Process ratOps holdSoxr.logged 64
          (construct ratOps holdSoxr.logged storeFast2 false 1 2).2 2 [5, 6, 7] 3 false
          2).self.mHandle.1
        = (construct ratOps holdSoxr.logged storeFast2 false 1 2).2.mHandle.1 ++
          [SoxrCall.soxr_set_io_ratio (ratOps.div ratOps.one 2) 0,
           SoxrCall.soxr_process [5, 6, 7]
             (if false = true then sizeNot 64 3 else 3) 2] :=
  ⟨rfl, (C3_variable_mode_sets_ratio_first ratOps holdSoxr 64
      (construct ratOps holdSoxr.logged storeFast2 false 1 2).2 rfl 2
      [5, 6, 7] 3 false 2).1⟩

/-- C4: the quality level set by the constructor is the integer stored under
"/Quality/LibsoxrHQSampleRateConverter" (3 when absent) if `useBestMethod`, and the integer
stored under "/Quality/LibsoxrSampleRateConverter" (1 when absent) otherwise; the two keys
differ, and the store after construction is the store before it. -/
theorem C4_quality_from_store {D S H : Type} (ops : DoubleOps D) (lib : Soxr D S H)
    (gPrefs : Store) (useBestMethod : Bool) (dMinFactor dMaxFactor : D) :
    (construct ops lib gPrefs useBestMethod dMinFactor dMaxFactor).2.mMethod
      = (if useBestMethod then (gPrefs "/Quality/LibsoxrHQSampleRateConverter").getD 3
         else (gPrefs "/Quality/LibsoxrSampleRateConverter").getD 1)
    ∧ GetBestMethodKey = "/Quality/LibsoxrHQSampleRateConverter"
    ∧ GetFastMethodKey = "/Quality/LibsoxrSampleRateConverter"
    ∧ GetBestMethodKey ≠ GetFastMethodKey
    ∧ (construct ops lib gPrefs useBestMethod dMinFactor dMaxFactor).1 = gPrefs := by
  refine ⟨?_, rfl, rfl, by decide, construct_store ops lib gPrefs useBestMethod _ _⟩
  rw [construct_method]
  unfold SetMethod Read GetBestMethodKey GetFastMethodKey GetBestMethodDefault
    GetFastMethodDefault
  cases useBestMethod
  · cases h : gPrefs "/Quality/LibsoxrSampleRateConverter" <;> simp [h]
  · cases h : gPrefs "/Quality/LibsoxrHQSampleRateConverter" <;> simp [h]

/-- C5: the constructor makes exactly one library call, `soxr_create` with input rate 1,
output rate `dMinFactor` and 1 channel; its quality spec is, in constant mode, the character
of the literal at the resolved quality level with flags 0, and in variable mode `SOXR_HQ`
with `SOXR_VR` whatever the quality level. For a quality level q in 0..3 that character is
entry q of the table [0, 1, 4, 6], which is strictly increasing. -/
theorem C5_recipe_at_construction {D S H : Type} (ops : DoubleOps D) (lib : Soxr D S H)
    (gPrefs : Store) (useBestMethod : Bool) (dMinFactor dMaxFactor : D) :
    (construct ops lib.logged gPrefs useBestMethod dMinFactor dMaxFactor).2.mHandle.1
      = [SoxrCall.soxr_create ops.one dMinFactor 1
          (if ops.eq dMinFactor dMaxFactor = true then
            { recipe := recipeAt (SetMethod gPrefs useBestMethod).2, flags := 0 }
           else { recipe := some lib.SOXR_HQ, flags := lib.SOXR_VR })]
    ∧ (∀ q : Int, 0 ≤ q → q < 4 → recipeAt q = presetRecipes.get? q.toNat
        ∧ ∃ r, recipeAt q = some r)
    ∧ presetRecipes = [0, 1, 4, 6]
    ∧ List.Pairwise (fun a b => a < b) presetRecipes := by
  refine ⟨?_, ?_, rfl, by decide⟩
  · unfold construct
    cases h : ops.eq dMinFactor dMaxFactor <;> simp [Soxr.logged, soxr_quality_spec]
  · intro q h0 h4
    have hq : q = 0 ∨ q = 1 ∨ q = 2 ∨ q = 3 := by omega
    rcases hq with rfl | rfl | rfl | rfl <;> exact ⟨rfl, _, rfl⟩

/-- C6, refuted as stated: with 7 stored under the best-quality key, the engine constructed
with `useBestMethod` holds quality level 7, which is not below `GetNumMethods`, and the
constant-mode recipe lookup falls outside the literal. -/
theorem C6_stored_value_out_of_range :
    (construct ratOps holdSoxr storeBest7 true 1 1).2.mMethod = 7
    ∧ ¬ (0 ≤ (construct ratOps holdSoxr storeBest7 true 1 1).2.mMethod
          ∧ (construct ratOps holdSoxr storeBest7 true 1 1).2.mMethod < GetNumMethods)
    ∧ recipeAt (construct ratOps holdSoxr storeBest7 true 1 1).2.mMethod = none := by
  refine ⟨rfl, ?_, rfl⟩
  decide

/-- C6, amended: when the store holds nothing under the key selected by `useBestMethod`, or
holds there a value in 0..3, the quality level of the constructed engine satisfies
`0 <= mMethod < GetNumMethods`, and the lookup in the literal yields one of the four preset
entries. -/
theorem C6_quality_level_in_range {D S H : Type} (ops : DoubleOps D) (lib : Soxr D S H)
    (gPrefs : Store) (useBestMethod : Bool) (dMinFactor dMaxFactor : D)
    (hstored : ∀ v : Int,
      gPrefs (if useBestMethod then GetBestMethodKey else GetFastMethodKey) = some v →
        0 ≤ v ∧ v < GetNumMethods) :
    0 ≤ (construct ops lib gPrefs useBestMethod dMinFactor dMaxFactor).2.mMethod
    ∧ (construct ops lib gPrefs useBestMethod dMinFactor dMaxFactor).2.mMethod < GetNumMethods
    ∧ ∃ r, recipeAt (construct ops lib gPrefs useBestMethod dMinFactor dMaxFactor).2.mMethod
          = some r ∧ r ∈ presetRecipes := by
  rw [construct_method]
  have key : 0 ≤ (SetMethod gPrefs useBestMethod).2
      ∧ (SetMethod gPrefs useBestMethod).2 < 4 := by
    unfold SetMethod Read
    cases useBestMethod
    · simp only [Bool.false_eq_true, if_false] at hstored ⊢
      cases h : gPrefs GetFastMethodKey with
      | none => simp [GetFastMethodDefault]
      | some v => exact hstored v h
    · simp only [if_true] at hstored ⊢
      cases h : gPrefs GetBestMethodKey with
      | none => simp [GetBestMethodDefault]
      | some v => exact hstored v h
  obtain ⟨h0, h4⟩ := key
  refine ⟨h0, h4, ?_⟩
  have hq : (SetMethod gPrefs useBestMethod).2 = 0 ∨ (SetMethod gPrefs useBestMethod).2 = 1
      ∨ (SetMethod gPrefs useBestMethod).2 = 2 ∨ (SetMethod gPrefs useBestMethod).2 = 3 := by
    omega
  rcases hq with h | h | h | h <;> rw [h] <;> exact ⟨_, rfl, by decide⟩

/-- Witness of the amended C6: the fast key holds 2, the engine is built with the fast
method. -/
theorem C6_quality_level_in_range_witness :
    (∀ v : Int, storeFast2 (if false = true then GetBestMethodKey else GetFastMethodKey) = some v →
        0 ≤ v ∧ v < GetNumMethods)
    ∧ 0 ≤ (construct ratOps holdSoxr storeFast2 false 1 1).2.mMethod
    ∧ (construct ratOps holdSoxr storeFast2 false 1 1).2.mMethod < GetNumMethods
    ∧ ∃ r, recipeAt (construct ratOps holdSoxr storeFast2 false 1 1).2.mMethod
          = some r ∧ r ∈ presetRecipes :=
  have h : ∀ v : Int,
      storeFast2 (if false = true then GetBestMethodKey else GetFastMethodKey) = some v →
        0 ≤ v ∧ v < GetNumMethods := by
    intro v hv
    have h2 : storeFast2 (if false = true then GetBestMethodKey else GetFastMethodKey)
        = some 2 := rfl
    rw [h2] at hv
    injection hv with hv
    subst hv
    decide
  ⟨h, C6_quality_level_in_range ratOps holdSoxr storeFast2 false 1 1 h⟩

/-- C7: `GetNumMethods()` is 4, `GetFastMethodDefault()` is 1 and `GetBestMethodDefault()`
is 3; they take no engine and no configuration; both defaults are indices below
`GetNumMethods()` and the fast default is strictly below the best one. -/
theorem C7_preset_table_constants :
    GetNumMethods = 4 ∧ GetFastMethodDefault = 1 ∧ GetBestMethodDefault = 3
    ∧ 0 ≤ GetFastMethodDefault ∧ GetFastMethodDefault < GetNumMethods
    ∧ 0 ≤ GetBestMethodDefault ∧ GetBestMethodDefault < GetNumMethods
    ∧ GetFastMethodDefault < GetBestMethodDefault := by
  decide

/-- C8: the names table has `GetNumMethods()` entries (the `wxASSERT`); for an index in
`0 .. GetNumMethods() - 1`, on a fresh or an already populated cache, and a translation
that maps non-empty strings to non-empty strings, `GetMethodName` is defined, is the
translation of the table entry at that index and is non-empty; with the identity
translation index 0 gives "Low Quality (Fastest)" and index 3 "Best Quality (Slowest)". -/
theorem C8_method_name_defined (wxGetTranslation : String → String)
    (htr : ∀ s : String, s ≠ "" → wxGetTranslation s ≠ "")
    (theArray : List String)
    (hcache : theArray = [] ∨ theArray = Populate wxGetTranslation [])
    (index : Int) (h0 : 0 ≤ index) (h1 : index < GetNumMethods) :
    (soxr_method_names.length : Int) = GetNumMethods
    ∧ (∃ name s, soxr_method_names.get? index.toNat = some name
        ∧ (GetMethodName wxGetTranslation theArray index).2 = some s
        ∧ s = wxGetTranslation name ∧ s ≠ "")
    ∧ (GetMethodName wxGetTranslation theArray index).1 = Populate wxGetTranslation []
    ∧ (GetMethodName id [] 0).2 = some "Low Quality (Fastest)"
    ∧ (GetMethodName id [] 3).2 = some "Best Quality (Slowest)" := by
  have hget : Get wxGetTranslation theArray = Populate wxGetTranslation [] := by
    rcases hcache with h | h
    · rw [h]; rfl
    · rw [h]; rfl
  have hpop : Populate wxGetTranslation []
      = [wxGetTranslation "Low Quality (Fastest)", wxGetTranslation "Medium Quality",
         wxGetTranslation "High Quality", wxGetTranslation "Best Quality (Slowest)"] := rfl
  refine ⟨rfl, ?_, hget, rfl, rfl⟩
  have hq : index = 0 ∨ index = 1 ∨ index = 2 ∨ index = 3 := by
    unfold GetNumMethods at h1
    omega
  unfold GetMethodName
  rw [hget, hpop]
  rcases hq with rfl | rfl | rfl | rfl
  · exact ⟨"Low Quality (Fastest)", _, rfl, rfl, rfl, htr _ (by decide)⟩
  · exact ⟨"Medium Quality", _, rfl, rfl, rfl, htr _ (by decide)⟩
  · exact ⟨"High Quality", _, rfl, rfl, rfl, htr _ (by decide)⟩
  · exact ⟨"Best Quality (Slowest)", _, rfl, rfl, rfl, htr _ (by decide)⟩

/-- Witness of C8: the identity translation, a fresh cache, index 2. -/
theorem C8_method_name_defined_witness :
    (∀ s : String, s ≠ "" → id s ≠ "")
    ∧ ∃ name s, soxr_method_names.get? (2 : Int).toNat = some name
        ∧ (GetMethodName id [] 2).2 = some s ∧ s = id name ∧ s ≠ "" :=
  ⟨fun _ h => h,
   (C8_method_name_defined id (fun _ h => h) [] (Or.inl rfl) 2 (by decide) (by decide)).2.1⟩

theorem two_pow_eq_double (w : Nat) (hw : 0 < w) : 2 ^ w = 2 * 2 ^ (w - 1) := by
  obtain ⟨k, rfl⟩ := Nat.exists_eq_succ_of_ne_zero (Nat.pos_iff_ne_zero.mp hw)
  rw [Nat.succ_sub_one, pow_succ, mul_comm]

theorem topBit_eq_decide (w x : Nat) (hw : 0 < w) (hx : x < 2 ^ w) :
    topBit w x = decide (2 ^ (w - 1) ≤ x) := by
  unfold topBit
  have h2 := two_pow_eq_double w hw
  have hP : 0 < 2 ^ (w - 1) := Nat.pow_pos (by decide)
  rw [Nat.mod_eq_of_lt hx]
  rw [h2] at hx
  generalize 2 ^ (w - 1) = P at hx hP
  by_cases h : P ≤ x
  · have hd : x / P = 1 := Nat.div_eq_of_lt_le (by omega) (by omega)
    simp [hd, h]
  · have hd : x / P = 0 := Nat.div_eq_of_lt (by omega)
    simp [hd, h]

/-- C10: in either mode the last library call of `Process` is `soxr_process` with the length
word `inBufferLen` when `lastFlag` is false and `2^w - 1 - inBufferLen` when it is true.
For `inBufferLen < 2^(w-1)` the top bit of that word equals `lastFlag`, complementing the
flush word gives back `inBufferLen`, and the word determines the pair
`(inBufferLen, lastFlag)` among such lengths; for `inBufferLen >= 2^(w-1)` the top bit is
the negation of `lastFlag`. -/
theorem C10_flush_length_word {D S H : Type} (ops : DoubleOps D) (lib : Soxr D S H)
    (w : Nat) (hw : 0 < w) (self : Resample (List (SoxrCall D S) × H)) (factor : D)
    (inBuffer : List S) (inBufferLen : Nat) (hlen : inBufferLen < 2 ^ w) (lastFlag : Bool)
    (outBufferLen : Nat) :
    (Process ops lib.logged w self factor inBuffer inBufferLen lastFlag
        outBufferLen).self.mHandle.1.getLast?
      = some (SoxrCall.soxr_process inBuffer
          (if lastFlag then 2 ^ w - 1 - inBufferLen else inBufferLen) outBufferLen)
    ∧ (inBufferLen < 2 ^ (w - 1) →
        topBit w (if lastFlag then 2 ^ w - 1 - inBufferLen else inBufferLen) = lastFlag
        ∧ sizeNot w (2 ^ w - 1 - inBufferLen) = inBufferLen
        ∧ ∀ (len2 : Nat) (last2 : Bool), len2 < 2 ^ (w - 1) →
            (if last2 then 2 ^ w - 1 - len2 else len2)
              = (if lastFlag then 2 ^ w - 1 - inBufferLen else inBufferLen) →
            len2 = inBufferLen ∧ last2 = lastFlag)
    ∧ (2 ^ (w - 1) ≤ inBufferLen →
        topBit w (if lastFlag then 2 ^ w - 1 - inBufferLen else inBufferLen) = !lastFlag) := by
  have h2 := two_pow_eq_double w hw
  have hP : 0 < 2 ^ (w - 1) := Nat.pow_pos (by decide)
  have hword : (if lastFlag = true then sizeNot w inBufferLen else inBufferLen)
      = (if lastFlag = true then 2 ^ w - 1 - inBufferLen else inBufferLen) := by
    rw [sizeNot_of_lt w hlen]
  have hwlt : (if lastFlag = true then 2 ^ w - 1 - inBufferLen else inBufferLen) < 2 ^ w := by
    split <;> omega
  refine ⟨?_, ?_, ?_⟩
  · unfold Process
    cases hm : self.mbWantConstRateResampling <;> simp [Soxr.logged, hword]
  · intro hsmall
    refine ⟨?_, ?_, ?_⟩
    · rw [topBit_eq_decide w _ hw hwlt]
      cases lastFlag
      · simp only [Bool.false_eq_true, if_false, decide_eq_false_iff_not]
        omega
      · simp only [if_true, decide_eq_true_eq]
        omega
    · rw [sizeNot_of_lt w (by omega)]
      omega
    · intro len2 last2 hlen2 heq
      cases lastFlag <;> cases last2 <;>
        simp only [Bool.false_eq_true, if_false, if_true] at heq <;>
        refine ⟨by omega, ?_⟩ <;> first | rfl | (exfalso; omega)
  · intro hbig
    rw [topBit_eq_decide w _ hw hwlt]
    cases lastFlag
    · simp only [Bool.false_eq_true, if_false, Bool.not_false, decide_eq_true_eq]
      exact hbig
    · simp only [if_true, Bool.not_true, decide_eq_false_iff_not]
      omega

/-- Witness of C10: a 64-bit `size_t`, a final chunk of 3 samples in constant mode; the word
passed is `2^64 - 4`. -/
theorem C10_flush_length_word_witness :
    0 < 64 ∧ 3 < 2 ^ 64
    ∧ (Process ratOps holdSoxr.logged 64
          (construct ratOps holdSoxr.logged storeFast2 false 2 2).2 2 [5, 6, 7] 3 true
          8).self.mHandle.1.getLast?
        = some (SoxrCall.soxr_process [5, 6, 7]
            (if true = true then 2 ^ 64 - 1 - 3 else 3) 8) :=
  ⟨by decide, by decide,
   (C10_flush_length_word ratOps holdSoxr 64 (by decide)
      (construct ratOps holdSoxr.logged storeFast2 false 2 2).2 2 [5, 6, 7] 3 (by decide) true
      8).1⟩

end Audacity
